import Mathlib

/-!
Verification development for the atlassian-toolkit repository.

The JavaScript sources are embedded shallowly:

* `src/lib/config.mjs` — `loadConfig` / `resetConfig` with the module-level
  cache made explicit (the cache value is threaded through the call).
* `src/lib/atlassian-client.mjs` — `atlassianRequest` (429 retry loop) and
  `uploadAttachment` (PUT with one POST fallback); the network is modelled as
  a script of responses consumed one per request attempt.
* `src/lib/jira.mjs` — `createProject` (conflict-to-fetch) and
  `createIssueTree` (two-level bulk creation with per-node catch).
* `src/lib/confluence.mjs` — `createSpace` and the recursive `buildPageTree`.

Backend behaviour that the code reacts to (fresh identifiers, conflicts on an
existing natural key, per-node failures) is modelled by explicit server
states (`IssueSrv`, `PageSrv`) that also record the trace of attempted calls.
-/

/-! ## JavaScript string and number primitives used by the sources -/

/-- JS truthiness fallback for strings: `a || b` where an absent value and the
empty string are both falsy. -/
def jsOr (a : Option String) (b : String) : String :=
  match a with
  | some s => if s = "" then b else s
  | none => b

/-- Longest prefix of decimal digits, as used by `parseInt(s, 10)`. -/
def leadDigits : List Char → List Char
  | [] => []
  | c :: cs => if c.isDigit then c :: leadDigits cs else []

/-- Numeric value of a digit list. -/
def digitsVal (cs : List Char) : Nat :=
  cs.foldl (fun a c => a * 10 + (c.toNat - 48)) 0

/-- Core of JS `parseInt(s, 10)` after whitespace trimming: optional sign,
then the longest digit run; `none` models `NaN` (no digits at all). -/
def parseIntCore (cs : List Char) : Option Int :=
  match cs with
  | '-' :: rest =>
    let ds := leadDigits rest
    if ds = [] then none else some (-(digitsVal ds : Int))
  | '+' :: rest =>
    let ds := leadDigits rest
    if ds = [] then none else some (digitsVal ds)
  | _ =>
    let ds := leadDigits cs
    if ds = [] then none else some (digitsVal ds)

/-- JS `parseInt(s, 10)`: skip leading whitespace, read an optionally signed
digit run; `none` models `NaN`. -/
def parseIntJs (s : String) : Option Int :=
  parseIntCore (s.toList.dropWhile Char.isWhitespace)

/-- JS `String.prototype.trim`. -/
def jsTrim (s : String) : String :=
  String.mk (((s.toList.dropWhile Char.isWhitespace).reverse.dropWhile
    Char.isWhitespace).reverse)

/-- JS `String.prototype.includes`: substring containment. -/
def jsIncludes (s sub : String) : Bool :=
  decide (sub.toList <:+: s.toList)

/-! ## Base64 (Node `Buffer.from(s).toString(base64)`, ASCII input) -/

/-- Character of the standard base64 alphabet at a 6-bit index. -/
def b64char (n : Nat) : Char :=
  (String.toList
    ("ABCDEFGHIJKLMNOPQRSTUVWXYZabcdefghijklmnopqrstuvwxyz0123456789+/")).getD
    n ('=')

/-- Encode a byte list three bytes at a time, padding with `=`. -/
def base64Go : List Nat → List Char
  | [] => []
  | [b1] => [b64char (b1 / 4), b64char (b1 % 4 * 16), '=', '=']
  | [b1, b2] =>
    [b64char (b1 / 4), b64char (b1 % 4 * 16 + b2 / 16), b64char (b2 % 16 * 4), '=']
  | b1 :: b2 :: b3 :: rest =>
    b64char (b1 / 4) :: b64char (b1 % 4 * 16 + b2 / 16) ::
      b64char (b2 % 16 * 4 + b3 / 64) :: b64char (b3 % 64) :: base64Go rest

/-- Base64 of an ASCII string, as Node computes the Basic-auth credential. -/
def base64Encode (s : String) : String :=
  String.mk (base64Go (s.toList.map Char.toNat))

/-! ## Configuration model (`src/lib/config.mjs`)

`process.env` and the file system are passed in as association lists; the JS
module-level `_config` cache becomes an explicit `Option Config` value that
each call consumes and returns. -/

/-- Last-binding-wins lookup, matching JS object assignment then indexing. -/
def envLookup (l : List (String × String)) (k : String) : Option String :=
  (l.reverse.find? (fun p => p.1 == k)).map (fun p => p.2)

/-- The `atlassian` section of the loaded configuration. -/
structure AtlassianCfg where
  domain : String
  email : String
  token : String
deriving DecidableEq, Repr

/-- The `auth` getter: base64 of the email, a colon, and the token. -/
def AtlassianCfg.auth (a : AtlassianCfg) : String :=
  base64Encode (a.email ++ (":") ++ a.token)

/-- The `screenshot` section; `parseInt` results keep the `NaN` case. -/
structure ScreenshotCfg where
  baseUrl : String
  dir : String
  width : Option Int
  height : Option Int
  scale : Option Int
deriving DecidableEq, Repr

/-- The `auth` (sign-in) section. -/
structure AuthCfg where
  email : String
  password : String
  provider : String
deriving DecidableEq, Repr

/-- The full configuration record built by `loadConfig`. -/
structure Config where
  atlassian : AtlassianCfg
  screenshot : ScreenshotCfg
  auth : AuthCfg
deriving DecidableEq, Repr

/-- Parse a `.env` file: per line, trim, skip blanks and `#` comments, split
at the first `=`, trim key and value; later lines overwrite earlier ones. -/
def parseEnvFile (content : String) : List (String × String) :=
  (content.splitOn ("\n")).foldl
    (fun acc line =>
      let t := jsTrim line
      if t = "" then acc
      else if t.startsWith ("#") then acc
      else
        match t.toList.findIdx? (fun c => c = '=') with
        | none => acc
        | some i => acc ++ [(jsTrim (t.take i), jsTrim (t.drop (i + 1)))])
    []

/-- The fresh (cache-miss) computation of `loadConfig`: resolve the env file
path, parse it if present, then read each key with `process.env` taking
precedence over the file, falling back to the given default. -/
def computeConfig (procEnv files : List (String × String)) (cwd : String)
    (configPath : Option String) : Config :=
  let envPath := jsOr configPath (cwd ++ ("/.env"))
  let fileEnv :=
    match envLookup files envPath with
    | some content => parseEnvFile content
    | none => []
  let get := fun (key fallback : String) =>
    jsOr (envLookup procEnv key) (jsOr (envLookup fileEnv key) fallback)
  { atlassian :=
    { domain := get ("ATLASSIAN_DOMAIN") ("")
      email := get ("ATLASSIAN_EMAIL") ("")
      token := get ("ATLASSIAN_API_TOKEN") ("") }
    screenshot :=
    { baseUrl := get ("APP_BASE_URL") ("")
      dir := get ("SCREENSHOT_DIR") ("./screenshots")
      width := parseIntJs (get ("SCREENSHOT_WIDTH") ("1440"))
      height := parseIntJs (get ("SCREENSHOT_HEIGHT") ("900"))
      scale := parseIntJs (get ("SCREENSHOT_SCALE") ("2")) }
    auth :=
    { email := get ("AUTH_EMAIL") ("")
      password := get ("AUTH_PASSWORD") ("")
      provider := get ("AUTH_PROVIDER") ("clerk") } }

/-- `loadConfig(configPath)`: return the cached value when present, otherwise
compute and cache. Returns the result together with the new cache. -/
def loadConfig (cache : Option Config) (procEnv files : List (String × String))
    (cwd : String) (configPath : Option String) : Config × Option Config :=
  match cache with
  | some c => (c, some c)
  | none =>
    let c := computeConfig procEnv files cwd configPath
    (c, some c)

/-- `resetConfig()`: clear the module cache. -/
def resetConfig (_cache : Option Config) : Option Config := none

/-! ## Request executor model (`src/lib/atlassian-client.mjs`, atlassianRequest)

The network is a script of responses, one consumed per HTTP attempt. A run
records how many attempts were made, the suspension lengths taken before each
retry (in seconds as parsed from the Retry-After header; `none` models `NaN`),
the final settlement of the promise, and the unconsumed rest of the script. -/

/-- One scripted backend answer to a single HTTP attempt. -/
inductive JsResp where
  | httpStatus (code : Nat) (data : String) (retryAfter : Option String)
  | netError (cause : String)
deriving DecidableEq, Repr

/-- Settlement of one `atlassianRequest` call. -/
inductive ReqResult where
  | ok (payload : String)
  | httpError (status : Nat) (body : String)
  | transportError (cause : String)
  | configError (msg : String)
deriving DecidableEq, Repr

/-- Observable outcome of a call: attempts made, waits taken before retries,
settlement, and the responses left unconsumed. -/
structure RunOut where
  attempts : Nat
  waits : List (Option Int)
  result : ReqResult
  rest : List JsResp
deriving DecidableEq, Repr

/-- Seconds read before a retry: `parseInt` of the retry-after header, with
the literal string 5 substituted when the header is falsy.
An absent or empty header falls back to the literal string `5`; a non-empty
unparsable header yields `none` (JS `NaN`). -/
def reqRetryAfterSecs (h : Option String) : Option Int :=
  parseIntJs (jsOr h ("5"))

/-- Response-handling loop of `atlassianRequest`: 2xx resolves, 429 with
budget left suspends and reissues with the budget decremented, anything else
rejects with the status and the body truncated to 500 characters. An
exhausted script models the socket dropping. -/
def requestLoop : List JsResp → Nat → RunOut
  | [], _ => ⟨0, [], ReqResult.transportError ("socket hang up"), []⟩
  | JsResp.netError c :: rest, _ => ⟨1, [], ReqResult.transportError c, rest⟩
  | JsResp.httpStatus code d ra :: rest, budget =>
    if 200 ≤ code ∧ code < 300 then ⟨1, [], ReqResult.ok d, rest⟩
    else if code = 429 ∧ 0 < budget then
      let out := requestLoop rest (budget - 1)
      ⟨out.attempts + 1, reqRetryAfterSecs ra :: out.waits, out.result, out.rest⟩
    else ⟨1, [], ReqResult.httpError code (d.take 500), rest⟩

/-- Per-call option overrides `{ domain, auth, retries }`; `domain` and
`auth` use `||` (falsy fallback), `retries` uses `??` (nullish fallback). -/
structure ReqOpts where
  domain : Option String := none
  auth : Option String := none
  retries : Option Nat := none
deriving DecidableEq, Repr

/-- Error message of the missing-domain configuration check. -/
def domainErrMsg : String :=
  "ATLASSIAN_DOMAIN not set. Configure in .env or environment."

/-- Error message of the missing-credential configuration check. -/
def authErrMsg : String :=
  "ATLASSIAN_EMAIL and ATLASSIAN_API_TOKEN not set."

/-- `atlassianRequest(method, path, body, opts)`: resolve domain and auth from
opts over the loaded config, throw synchronously (zero attempts, script
untouched) when the domain is missing or the credential is missing or the
degenerate `Og==`, otherwise run the response loop with budget
`opts.retries ?? 3`. -/
def atlassianRequest (cfg : Config) (opts : ReqOpts) (script : List JsResp) :
    RunOut :=
  let domain := jsOr opts.domain cfg.atlassian.domain
  let auth := jsOr opts.auth cfg.atlassian.auth
  let maxRetries := opts.retries.getD 3
  if domain = "" then ⟨0, [], ReqResult.configError domainErrMsg, script⟩
  else if auth = "" ∨ auth = "Og==" then
    ⟨0, [], ReqResult.configError authErrMsg, script⟩
  else requestLoop script maxRetries

/-! ## Upload model (`src/lib/atlassian-client.mjs`, uploadAttachment)

The multipart body is built once; the PUT attempt and the at-most-one POST
fallback are recorded as a list of attempts carrying verb, path and body. -/

/-- One scripted answer to an upload attempt. -/
inductive UpResp where
  | http (code : Nat) (data : String)
  | netError (cause : String)
deriving DecidableEq, Repr

/-- Settlement of one `uploadAttachment` call; `uploadError` carries the
status and the body truncated to 200 characters. -/
inductive UpResult where
  | ok (payload : String)
  | uploadError (status : Nat) (excerpt : String)
  | transportError (cause : String)
deriving DecidableEq, Repr

/-- One HTTP attempt made by `uploadAttachment`. -/
structure UpAttempt where
  verb : String
  path : String
  payload : String
deriving DecidableEq, Repr

/-- The multipart/form-data body: boundary header with the file part, the
file bytes, and the closing boundary. -/
def multipartBody (boundary filename fileData : String) : String :=
  ("--") ++ boundary ++
  ("\r\nContent-Disposition: form-data; name=\"file\"; filename=\"") ++
  filename ++ ("\"\r\nContent-Type: image/png\r\n\r\n") ++ fileData ++
  ("\r\n--") ++ boundary ++ ("--\r\n")

/-- `uploadAttachment(apiPath, filepath, filename)`: PUT the multipart body;
on 2xx resolve; on 404 or 400 make exactly one POST attempt with the same
path and body, whose non-2xx answer is terminal; any other non-2xx on the
first attempt is terminal at once. -/
def uploadAttachment (apiPath filename fileData boundary : String)
    (script : List UpResp) : List UpAttempt × UpResult :=
  let body := multipartBody boundary filename fileData
  let put : UpAttempt := ⟨"PUT", apiPath, body⟩
  let post : UpAttempt := ⟨"POST", apiPath, body⟩
  match script with
  | [] => ([put], UpResult.transportError ("socket hang up"))
  | UpResp.netError c :: _ => ([put], UpResult.transportError c)
  | UpResp.http code d :: rest =>
    if 200 ≤ code ∧ code < 300 then ([put], UpResult.ok d)
    else if code = 404 ∨ code = 400 then
      match rest with
      | [] => ([put, post], UpResult.transportError ("socket hang up"))
      | UpResp.netError c :: _ => ([put, post], UpResult.transportError c)
      | UpResp.http code2 d2 :: _ =>
        if 200 ≤ code2 ∧ code2 < 300 then ([put, post], UpResult.ok d2)
        else ([put, post], UpResult.uploadError code2 (d2.take 200))
    else ([put], UpResult.uploadError code (d.take 200))

/-! ## Idempotent creators (`createProject` in jira.mjs, `createSpace` in
confluence.mjs)

Both issue the create call through `atlassianRequest` and, when the caught
error has `statusCode === 409` or a message containing `already exists`,
issue the fetch call on the remaining script and return its result. -/

/-- `e.statusCode` of a caught error: present only on the HttpError the
client itself constructed. -/
def errStatusCode : ReqResult → Option Nat
  | ReqResult.httpError s _ => some s
  | _ => none

/-- `e.message` of a caught error: the HttpError message is
`HTTP status: truncated-body`; transport and configuration errors carry
their own message; a resolved call has no error message. -/
def errMessage : ReqResult → String
  | ReqResult.httpError s b => ("HTTP ") ++ toString s ++ (": ") ++ b
  | ReqResult.transportError c => c
  | ReqResult.configError m => m
  | ReqResult.ok _ => ""

/-- Outcome of one creator call: the settlement, the total number of network
attempts, the unconsumed script, and whether the conflict fetch was issued. -/
structure CreateOut where
  result : ReqResult
  attempts : Nat
  rest : List JsResp
  fetched : Bool
deriving DecidableEq, Repr

/-- `createProject(key, name)`: POST the project; on an error with status 409
or a message containing `already exists`, GET the project instead and return
that result; any other error is rethrown unchanged. -/
def createProject (cfg : Config) (script : List JsResp) : CreateOut :=
  let r := atlassianRequest cfg {} script
  match r.result with
  | ReqResult.ok p => ⟨ReqResult.ok p, r.attempts, r.rest, false⟩
  | e =>
    if errStatusCode e = some 409 ∨ jsIncludes (errMessage e) ("already exists")
    then
      let f := atlassianRequest cfg {} r.rest
      ⟨f.result, r.attempts + f.attempts, f.rest, true⟩
    else ⟨e, r.attempts, r.rest, false⟩

/-- `createSpace(key, name, description)`: same conflict-to-fetch shape as
`createProject`, with the message check written before the status check. -/
def createSpace (cfg : Config) (script : List JsResp) : CreateOut :=
  let r := atlassianRequest cfg {} script
  match r.result with
  | ReqResult.ok p => ⟨ReqResult.ok p, r.attempts, r.rest, false⟩
  | e =>
    if jsIncludes (errMessage e) ("already exists") ∨ errStatusCode e = some 409
    then
      let f := atlassianRequest cfg {} r.rest
      ⟨f.result, r.attempts + f.attempts, f.rest, true⟩
    else ⟨e, r.attempts, r.rest, false⟩

/-! ## Hierarchical provisioner, JIRA side (`src/lib/jira.mjs`)

`createIssue` has no conflict recovery of its own: it POSTs and lets any
error propagate. The backend is a server state: a fresh identifier counter,
the set of natural keys that already exist (a create on one of them answers
409 `already exists`), the keys whose creation fails outright (HTTP 500),
an optional configuration error raised before any network work, and the
trace of attempted create calls. -/

/-- Result payload echoed by the backend for a created issue. -/
structure CRes where
  id : Nat
  key : String
  summary : String
deriving DecidableEq, Repr

/-- A caught JS error as the provisioner sees it: the optional
`statusCode` property and the `message`. -/
structure JsError where
  statusCode : Option Nat
  message : String
deriving DecidableEq, Repr

/-- Backend-plus-client state for issue creation. -/
structure IssueSrv where
  nextId : Nat
  existing : List String
  failing : List String
  configErr : Option String
  calls : List (String × Option String)
  created : List CRes
deriving DecidableEq, Repr

/-- Issue key assigned by the backend. -/
def issueKey (n : Nat) : String := ("PROJ-") ++ toString n

/-- One `createIssue(projectKey, type, summary, …, { parentKey })` call: the
attempt is recorded; a pending configuration error rejects before any
network effect; an outright-failing key answers 500; an existing natural key
answers 409 with an `already exists` message; otherwise the backend mints a
fresh identifier, remembers the key and echoes the result. `createIssue`
itself catches nothing. -/
def issueCreate (st : IssueSrv) (summary : String) (parentKey : Option String) :
    Except JsError CRes × IssueSrv :=
  let st1 := { st with calls := st.calls ++ [(summary, parentKey)] }
  match st.configErr with
  | some m => (Except.error ⟨none, m⟩, st1)
  | none =>
    if summary ∈ st1.failing then
      (Except.error ⟨some 500, ("HTTP 500: Internal Server Error")⟩, st1)
    else if summary ∈ st1.existing then
      (Except.error
        ⟨some 409, ("HTTP 409: An issue with this name already exists")⟩, st1)
    else
      let r : CRes := ⟨st1.nextId, issueKey st1.nextId, summary⟩
      (Except.ok r,
        { st1 with
          nextId := st1.nextId + 1
          existing := st1.existing ++ [summary]
          created := st1.created ++ [r] })

/-- Resource specification tree for issues: summary plus ordered children. -/
inductive ISpec where
  | mk (summary : String) (children : List ISpec)

/-- Summary of an issue spec. -/
def ISpec.summary : ISpec → String
  | ISpec.mk s _ => s

/-- Children of an issue spec. -/
def ISpec.children : ISpec → List ISpec
  | ISpec.mk _ cs => cs

/-- Child loop of `createIssueTree`: each child is created with the parent
key; a child error is caught, logged and skipped; successes are appended to
the `created` report in order. -/
def createChildren (st : IssueSrv) (parentKey : String) :
    List ISpec → List CRes × IssueSrv
  | [] => ([], st)
  | c :: cs =>
    match issueCreate st c.summary (some parentKey) with
    | (Except.ok r, st1) =>
      let out := createChildren st1 parentKey cs
      (r :: out.1, out.2)
    | (Except.error _, st1) => createChildren st1 parentKey cs

/-- `createIssueTree(projectKey, issues)`: for each root spec, try to create
the issue; on success push the result, then run the child loop with the new
issue key (the code walks exactly these two levels); on failure catch, log
and move to the next root. Returns the `created` array. -/
def createIssueTree (st : IssueSrv) : List ISpec → List CRes × IssueSrv
  | [] => ([], st)
  | i :: rest =>
    match issueCreate st i.summary none with
    | (Except.ok r, st1) =>
      let cOut := createChildren st1 r.key i.children
      let rOut := createIssueTree cOut.2 rest
      (r :: cOut.1 ++ rOut.1, rOut.2)
    | (Except.error _, st1) => createIssueTree st1 rest

/-! ## Hierarchical provisioner, Confluence side (`src/lib/confluence.mjs`)

`buildPageTree` recurses into children with the created page id as the new
parent and returns nothing; per-node errors are caught and logged. The
backend state mirrors the issue one, with a trace of attempted
`createPage(title, parentId)` calls and the pages actually created. -/

/-- Result payload echoed by the backend for a created page. -/
structure PageRes where
  id : String
  title : String
deriving DecidableEq, Repr

/-- Backend-plus-client state for page creation. -/
structure PageSrv where
  nextId : Nat
  failing : List String
  calls : List (String × String)
  created : List PageRes
deriving DecidableEq, Repr

/-- One `createPage(spaceKey, title, body, parentId)` call: the attempt is
recorded; a failing title answers 500; otherwise the backend mints a fresh
page id and the page is created under the given parent. -/
def pageCreate (st : PageSrv) (title parentId : String) :
    Except JsError PageRes × PageSrv :=
  let st1 := { st with calls := st.calls ++ [(title, parentId)] }
  if title ∈ st1.failing then
    (Except.error ⟨some 500, ("HTTP 500: Internal Server Error")⟩, st1)
  else
    let r : PageRes := ⟨toString st1.nextId, title⟩
    (Except.ok r,
      { st1 with nextId := st1.nextId + 1, created := st1.created ++ [r] })

/-- Resource specification tree for pages: title, body, ordered children. -/
inductive PSpec where
  | mk (title : String) (body : String) (children : List PSpec)

/-- Title of a page spec. -/
def PSpec.title : PSpec → String
  | PSpec.mk t _ _ => t

/-- Children of a page spec. -/
def PSpec.children : PSpec → List PSpec
  | PSpec.mk _ _ cs => cs

mutual

/-- Body of one `buildPageTree` loop iteration: try `createPage`; on success
recurse into the children (when any) with the created id as parent; on
failure catch, log and skip the whole subtree. -/
def buildPageOne (st : PageSrv) (parentId : String) : PSpec → PageSrv
  | PSpec.mk t _ cs =>
    match pageCreate st t parentId with
    | (Except.ok created, st1) =>
      match cs with
      | [] => st1
      | c :: cs2 => buildPageTree st1 created.id (c :: cs2)
    | (Except.error _, st1) => st1
termination_by p => sizeOf p

/-- `buildPageTree(spaceKey, parentId, pages)`: process the page list in
order, all under the same parent. -/
def buildPageTree (st : PageSrv) (parentId : String) : List PSpec → PageSrv
  | [] => st
  | p :: rest => buildPageTree (buildPageOne st parentId p) parentId rest
termination_by ps => sizeOf ps

end

/-! ## Pre-order traversals of specification forests -/

mutual

/-- Pre-order summaries of one issue spec tree. -/
def preSummaries1 : ISpec → List String
  | ISpec.mk s cs => s :: preSummariesF cs

/-- Pre-order summaries of an issue spec forest. -/
def preSummariesF : List ISpec → List String
  | [] => []
  | i :: rest => preSummaries1 i ++ preSummariesF rest

end

mutual

/-- Pre-order titles of one page spec tree. -/
def preTitles1 : PSpec → List String
  | PSpec.mk t _ cs => t :: preTitlesF cs

/-- Pre-order titles of a page spec forest. -/
def preTitlesF : List PSpec → List String
  | [] => []
  | p :: rest => preTitles1 p ++ preTitlesF rest

end

/-- A concrete well-formed configuration, used to instantiate the theorems
below at closed inputs. -/
def testCfg : Config :=
  ⟨⟨("example.atlassian.net"), ("user@example.com"), ("tok123")⟩,
   ⟨(""), ("./screenshots"), some 1440, some 900, some 2⟩,
   ⟨(""), (""), ("clerk")⟩⟩

mutual

/-- Node count of one page spec tree. -/
def psSize : PSpec → Nat
  | PSpec.mk _ _ cs => 1 + psSizeF cs

/-- Node count of a page spec forest. -/
def psSizeF : List PSpec → Nat
  | [] => 0
  | p :: rest => psSize p + psSizeF rest

end

/-! ## Helper lemmas about single creation calls -/

/-- Every `createIssue` call records exactly its own attempt. -/
theorem issueCreate_calls (st : IssueSrv) (s : String) (pk : Option String) :
    ((issueCreate st s pk).2).calls = st.calls ++ [(s, pk)] := by
  unfold issueCreate
  cases h : st.configErr <;> simp <;> split_ifs <;> simp

/-- The server records a created issue exactly when the call succeeds. -/
theorem issueCreate_created (st : IssueSrv) (s : String) (pk : Option String) :
    ((issueCreate st s pk).2).created =
      st.created ++
        (match (issueCreate st s pk).1 with
          | Except.ok r => [r]
          | Except.error _ => []) := by
  unfold issueCreate
  cases h : st.configErr <;> simp <;> split_ifs <;> simp

/-- A failed `createIssue` call changes nothing but the recorded attempt. -/
theorem issueCreate_error_state (st : IssueSrv) (s : String) (pk : Option String)
    (e : JsError) (st1 : IssueSrv)
    (h : issueCreate st s pk = (Except.error e, st1)) :
    st1 = { st with calls := st.calls ++ [(s, pk)] } := by
  unfold issueCreate at h
  cases hc : st.configErr <;> rw [hc] at h <;> simp at h
  case none => split_ifs at h <;> simp_all
  case some m => exact h.2.symm

/-- A successful `createIssue` call echoes the requested summary. -/
theorem issueCreate_ok_summary (st : IssueSrv) (s : String) (pk : Option String)
    (r : CRes) (st1 : IssueSrv)
    (h : issueCreate st s pk = (Except.ok r, st1)) : r.summary = s := by
  unfold issueCreate at h
  cases hc : st.configErr <;> rw [hc] at h <;> simp at h
  case none =>
    split_ifs at h
    · exact absurd h (by simp)
    · exact absurd h (by simp)
    · simp at h
      obtain ⟨rfl, -⟩ := h
      rfl

/-- Every `createPage` call records exactly its own attempt. -/
theorem pageCreate_calls (st : PageSrv) (t pid : String) :
    ((pageCreate st t pid).2).calls = st.calls ++ [(t, pid)] := by
  unfold pageCreate
  dsimp only
  split_ifs <;> simp

/-- The server records a created page exactly when the call succeeds. -/
theorem pageCreate_created (st : PageSrv) (t pid : String) :
    ((pageCreate st t pid).2).created =
      st.created ++
        (match (pageCreate st t pid).1 with
          | Except.ok r => [r]
          | Except.error _ => []) := by
  unfold pageCreate
  dsimp only
  split_ifs <;> simp

/-- A failed `createPage` call changes nothing but the recorded attempt. -/
theorem pageCreate_error_state (st : PageSrv) (t pid : String) (e : JsError)
    (st1 : PageSrv) (h : pageCreate st t pid = (Except.error e, st1)) :
    st1 = { st with calls := st.calls ++ [(t, pid)] } := by
  unfold pageCreate at h
  dsimp only at h
  split_ifs at h
  · exact (Prod.mk.injEq .. ▸ h).2.symm
  · exact absurd h (by simp)

/-- A successful `createPage` call echoes the requested title, appends the
created page, and records exactly the one attempt. -/
theorem pageCreate_ok_state (st : PageSrv) (t pid : String) (r : PageRes)
    (st1 : PageSrv) (h : pageCreate st t pid = (Except.ok r, st1)) :
    r.title = t ∧ st1.calls = st.calls ++ [(t, pid)] ∧
      st1.created = st.created ++ [r] := by
  unfold pageCreate at h
  dsimp only at h
  split_ifs at h
  · exact absurd h (by simp)
  · simp at h
    obtain ⟨rfl, rfl⟩ := h
    exact ⟨rfl, rfl, rfl⟩

/-! ## Report accumulation lemmas for the issue provisioner -/

/-- The child loop returns exactly the children the backend created, in
creation order. -/
theorem createChildren_created_report :
    ∀ (cs : List ISpec) (st : IssueSrv) (pk : String),
      ((createChildren st pk cs).2).created =
        st.created ++ (createChildren st pk cs).1 := by
  intro cs
  induction cs with
  | nil => intro st pk; simp [createChildren]
  | cons c cs ih =>
    intro st pk
    rcases h : issueCreate st c.summary (some pk) with ⟨res, st1⟩
    have hc := issueCreate_created st c.summary (some pk)
    rw [h] at hc
    cases res with
    | ok r =>
      simp at hc
      simp [createChildren, h, ih st1, hc]
    | error e =>
      simp at hc
      simp [createChildren, h, ih st1, hc]

/-- The full run returns exactly the issues the backend created, in creation
order. -/
theorem createIssueTree_created_report :
    ∀ (F : List ISpec) (st : IssueSrv),
      ((createIssueTree st F).2).created =
        st.created ++ (createIssueTree st F).1 := by
  intro F
  induction F with
  | nil => intro st; simp [createIssueTree]
  | cons i rest ih =>
    intro st
    rcases h : issueCreate st i.summary none with ⟨res, st1⟩
    have hc := issueCreate_created st i.summary none
    rw [h] at hc
    cases res with
    | ok r =>
      simp at hc
      simp [createIssueTree, h, ih, createChildren_created_report, hc]
    | error e =>
      simp at hc
      simp [createIssueTree, h, ih, hc]

/-- C10: once `loadConfig` has returned a configuration, every later call —
under any process environment, file system, working directory and
`configPath` — returns the identical cached value without recomputing it;
after `resetConfig`, the next call recomputes the configuration from the
then-current inputs. -/
theorem loadConfig_cache_behavior
    (cache : Option Config) (pe files : List (String × String)) (cwd : String)
    (p : Option String) (pe2 files2 : List (String × String)) (cwd2 : String)
    (p2 : Option String) :
    (loadConfig (loadConfig cache pe files cwd p).2 pe2 files2 cwd2 p2 =
      ((loadConfig cache pe files cwd p).1,
        (loadConfig cache pe files cwd p).2)) ∧
    (loadConfig (resetConfig (loadConfig cache pe files cwd p).2)
        pe2 files2 cwd2 p2 =
      (computeConfig pe2 files2 cwd2 p2,
        some (computeConfig pe2 files2 cwd2 p2))) := by
  cases cache <;> simp [loadConfig, resetConfig]

/-- C7 counterexample: a Retry-After hint that is present but unparsable
(here the header value x) makes the parsed wait `none` (JS `NaN`), not the
claimed 5-second fallback, on a 429 with budget remaining. -/
theorem retryAfter_unparsable_cex :
    (requestLoop [JsResp.httpStatus 429 ("b") (some ("x")),
        JsResp.httpStatus 200 ("ok") none] 3).waits = [none] ∧
      reqRetryAfterSecs (some ("x")) ≠ some 5 := by
  exact ⟨by decide, by decide⟩

/-- C7 amended: on a 429 with budget remaining the wait recorded is exactly
`reqRetryAfterSecs` of the header, which is 5 when the header is absent or
empty and otherwise the JS `parseInt` of the header value — `none` (`NaN`,
which `setTimeout` treats as no delay), not 5, when that value is non-empty
but unparsable. -/
theorem retryAfter_wait_amended (body : String) (ra : Option String)
    (rest : List JsResp) (budget : Nat) :
    ((requestLoop (JsResp.httpStatus 429 body ra :: rest) (budget + 1)).waits.head?
      = some (reqRetryAfterSecs ra)) ∧
    reqRetryAfterSecs none = some 5 ∧
    (∀ s : String,
      reqRetryAfterSecs (some s) = if s = "" then some 5 else parseIntJs s) := by
  refine ⟨?_, by decide, ?_⟩
  · simp [requestLoop]
  · intro s
    by_cases hs : s = "" <;> simp [reqRetryAfterSecs, jsOr, hs]
    decide

/-- C4 counterexample: with root A failing and root B succeeding, both roots
are attempted but the returned report has a single entry, for B only — the
failed node A has no entry at all. -/
theorem provision_report_failed_missing_cex :
    (createIssueTree ⟨1, [], [("A")], none, [], []⟩
        [ISpec.mk ("A") [], ISpec.mk ("B") []]).1 =
      [⟨1, ("PROJ-1"), ("B")⟩] ∧
    (createIssueTree ⟨1, [], [("A")], none, [], []⟩
        [ISpec.mk ("A") [], ISpec.mk ("B") []]).2.calls =
      [(("A"), none), (("B"), none)] ∧
    (∀ r ∈ (createIssueTree ⟨1, [], [("A")], none, [], []⟩
        [ISpec.mk ("A") [], ISpec.mk ("B") []]).1, r.summary ≠ ("A")) := by
  exact ⟨by decide, by decide, by decide⟩

/-- C4 amended: a completed run returns a report listing exactly the
successfully created nodes, in creation order; a node whose creation failed
leaves no entry in the report (the failure is only logged). -/
theorem provision_report_only_successes (F : List ISpec) (st : IssueSrv) :
    ((createIssueTree st F).2).created = st.created ++ (createIssueTree st F).1 := by
  exact createIssueTree_created_report F st

/-- A pending configuration error makes every `createIssue` reject before any
backend effect, recording only the attempt. -/
theorem issueCreate_configErr (st : IssueSrv) (s : String) (pk : Option String)
    (m : String) (h : st.configErr = some m) :
    issueCreate st s pk =
      (Except.error ⟨none, m⟩, { st with calls := st.calls ++ [(s, pk)] }) := by
  unfold issueCreate
  rw [h]

/-- Under a pending configuration error the tree walk still visits every
root: each per-node error is caught, nothing is created, and the walk never
terminates early. -/
theorem createIssueTree_configErr (m : String) :
    ∀ (F : List ISpec) (st : IssueSrv), st.configErr = some m →
      (createIssueTree st F).1 = [] ∧
      ((createIssueTree st F).2).calls.length = st.calls.length + F.length := by
  intro F
  induction F with
  | nil => intro st h; simp [createIssueTree]
  | cons i rest ih =>
    intro st h
    rw [createIssueTree, issueCreate_configErr st i.summary none m h]
    have h2 := ih { st with calls := st.calls ++ [(i.summary, none)] } (by simp [h])
    refine ⟨h2.1, ?_⟩
    rw [h2.2]
    simp
    omega

/-- C9 amended: a missing domain, or a missing or degenerate credential
(`Og==`, the base64 of an empty email and token), makes `atlassianRequest`
reject with a configuration error after zero network attempts with the
response script untouched; but when such a call happens inside the
provisioner, the per-node catch absorbs it like any other error and the walk
continues over all remaining nodes. -/
theorem atlassianRequest_config_error (cfg : Config) (opts : ReqOpts)
    (script : List JsResp) (m : String) (st : IssueSrv) (F : List ISpec) :
    (jsOr opts.domain cfg.atlassian.domain = "" →
      atlassianRequest cfg opts script =
        ⟨0, [], ReqResult.configError domainErrMsg, script⟩) ∧
    (jsOr opts.domain cfg.atlassian.domain ≠ "" →
      (jsOr opts.auth cfg.atlassian.auth = "" ∨
        jsOr opts.auth cfg.atlassian.auth = ("Og==")) →
      atlassianRequest cfg opts script =
        ⟨0, [], ReqResult.configError authErrMsg, script⟩) ∧
    (∀ d : String, (AtlassianCfg.mk d ("") ("")).auth = ("Og==")) ∧
    (st.configErr = some m →
      (createIssueTree st F).1 = [] ∧
      ((createIssueTree st F).2).calls.length = st.calls.length + F.length) := by
  refine ⟨?_, ?_, fun d => rfl, fun h => createIssueTree_configErr m F st h⟩
  · intro h
    unfold atlassianRequest
    dsimp only
    rw [if_pos h]
  · intro h1 h2
    unfold atlassianRequest
    dsimp only
    rw [if_neg h1, if_pos h2]

/-- C9 counterexample: with the configuration error pending, the provisioner
does not terminate at the first node — both roots are attempted, the error
is caught per node, and the run completes normally with an empty report. -/
theorem provisioner_catches_config_error_cex :
    createIssueTree ⟨1, [], [], some domainErrMsg, [], []⟩
        [ISpec.mk ("A") [], ISpec.mk ("B") []] =
      ([], ⟨1, [], [], some domainErrMsg, [(("A"), none), (("B"), none)], []⟩) := by
  decide

/-! ## Retry-bound lemmas for the request executor -/

/-- Unfolding step: a 429 answer with budget remaining suspends for the
parsed hint and reissues with the budget decremented. -/
theorem requestLoop_429_step (body : String) (ra : Option String)
    (script : List JsResp) (b : Nat) :
    requestLoop (JsResp.httpStatus 429 body ra :: script) (b + 1) =
      ⟨(requestLoop script b).attempts + 1,
        reqRetryAfterSecs ra :: (requestLoop script b).waits,
        (requestLoop script b).result, (requestLoop script b).rest⟩ := by
  simp [requestLoop]

/-- Unfolding step: a 429 answer with the budget exhausted rejects with the
status and truncated body. -/
theorem requestLoop_429_zero (body : String) (ra : Option String)
    (script : List JsResp) :
    requestLoop (JsResp.httpStatus 429 body ra :: script) 0 =
      ⟨1, [], ReqResult.httpError 429 (body.take 500), script⟩ := by
  simp [requestLoop]

/-- Unfolding step: a 200 answer resolves at once. -/
theorem requestLoop_200 (d : String) (ra : Option String)
    (script : List JsResp) (b : Nat) :
    requestLoop (JsResp.httpStatus 200 d ra :: script) b =
      ⟨1, [], ReqResult.ok d, script⟩ := by
  simp [requestLoop]

/-- A run of budget-plus-one 429 answers exhausts the budget: one attempt per
answer, one wait per retry, and a single HTTP 429 error with the remaining
script untouched. -/
theorem requestLoop_429_exhaust :
    ∀ (n : Nat) (body : String) (ra : Option String) (rest : List JsResp),
      requestLoop
          (List.replicate (n + 1) (JsResp.httpStatus 429 body ra) ++ rest) n =
        ⟨n + 1, List.replicate n (reqRetryAfterSecs ra),
          ReqResult.httpError 429 (body.take 500), rest⟩ := by
  intro n
  induction n with
  | zero => intro body ra rest; simp [requestLoop_429_zero]
  | succ j ih =>
    intro body ra rest
    rw [List.replicate_succ, List.cons_append, requestLoop_429_step,
      ih body ra rest]
    simp [List.replicate_succ]

/-- A run of k 429 answers inside the budget followed by a success resolves
after exactly k suspensions and k+1 attempts. -/
theorem requestLoop_429_success :
    ∀ (k n : Nat) (body d : String) (ra ra2 : Option String)
      (rest : List JsResp),
      requestLoop
          (List.replicate k (JsResp.httpStatus 429 body ra) ++
            JsResp.httpStatus 200 d ra2 :: rest) (k + n) =
        ⟨k + 1, List.replicate k (reqRetryAfterSecs ra), ReqResult.ok d, rest⟩ := by
  intro k
  induction k with
  | zero => intro n body d ra ra2 rest; simp [requestLoop_200]
  | succ j ih =>
    intro n body d ra ra2 rest
    have harith : j + 1 + n = (j + n) + 1 := by omega
    rw [List.replicate_succ, List.cons_append, harith, requestLoop_429_step,
      ih n body d ra ra2 rest]
    simp [List.replicate_succ]

/-- C1: with a valid configuration and retry budget n, a script of n+1
straight 429 answers makes exactly n+1 attempts (one wait per retry) and
rejects with a single HTTP 429 error leaving the rest of the script
untouched; a script of k 429 answers within budget (k + m = n) followed by a
2xx answer resolves with the success payload after exactly k suspensions and
k+1 attempts. -/
theorem atlassianRequest_retry_bound (cfg : Config) (opts : ReqOpts)
    (n k m : Nat) (body d : String) (ra ra2 : Option String)
    (rest rest2 : List JsResp)
    (hd : jsOr opts.domain cfg.atlassian.domain ≠ "")
    (ha : jsOr opts.auth cfg.atlassian.auth ≠ "")
    (ha2 : jsOr opts.auth cfg.atlassian.auth ≠ ("Og=="))
    (hr : opts.retries = some n) (hk : k + m = n) :
    (atlassianRequest cfg opts
        (List.replicate (n + 1) (JsResp.httpStatus 429 body ra) ++ rest) =
      ⟨n + 1, List.replicate n (reqRetryAfterSecs ra),
        ReqResult.httpError 429 (body.take 500), rest⟩) ∧
    (atlassianRequest cfg opts
        (List.replicate k (JsResp.httpStatus 429 body ra) ++
          JsResp.httpStatus 200 d ra2 :: rest2) =
      ⟨k + 1, List.replicate k (reqRetryAfterSecs ra), ReqResult.ok d, rest2⟩) := by
  have hauth : ¬(jsOr opts.auth cfg.atlassian.auth = "" ∨
      jsOr opts.auth cfg.atlassian.auth = ("Og==")) := by
    intro hor
    cases hor with
    | inl h => exact ha h
    | inr h => exact ha2 h
  constructor
  · unfold atlassianRequest
    dsimp only
    rw [if_neg hd, if_neg hauth, hr]
    exact requestLoop_429_exhaust n body ra rest
  · unfold atlassianRequest
    dsimp only
    rw [if_neg hd, if_neg hauth, hr]
    have : (some n).getD 3 = k + m := by simp [hk]
    rw [this]
    exact requestLoop_429_success k m body d ra ra2 rest2

/-- C1 witness: the retry bound at a closed input (budget 2, three straight
429 answers; and one 429 then a 200 within the same budget). -/
theorem atlassianRequest_retry_bound_witness :
    (atlassianRequest testCfg ⟨none, none, some 2⟩
        (List.replicate (2 + 1) (JsResp.httpStatus 429 ("b") (some ("7"))) ++ []) =
      ⟨2 + 1, List.replicate 2 (reqRetryAfterSecs (some ("7"))),
        ReqResult.httpError 429 (("b").take 500), []⟩) ∧
    (atlassianRequest testCfg ⟨none, none, some 2⟩
        (List.replicate 1 (JsResp.httpStatus 429 ("b") (some ("7"))) ++
          JsResp.httpStatus 200 ("ok") none :: []) =
      ⟨1 + 1, List.replicate 1 (reqRetryAfterSecs (some ("7"))),
        ReqResult.ok ("ok"), []⟩) :=
  atlassianRequest_retry_bound testCfg ⟨none, none, some 2⟩ 2 1 1 ("b") ("ok")
    (some ("7")) none [] [] (by decide) (by decide) (by decide) rfl rfl

/-- C3: when the create call fails with an HttpError whose status is 409 or
whose message contains already exists, both idempotent creators issue the
conflict fetch and return its result as the creation result (never failing
solely because the resource existed); any error matching neither signal
propagates unchanged with no fetch issued. -/
theorem createOrFetch_conflict (cfg : Config) (script : List JsResp) :
    (∀ s b, (atlassianRequest cfg {} script).result = ReqResult.httpError s b →
      (s = 409 ∨
        jsIncludes (errMessage (ReqResult.httpError s b)) ("already exists") = true) →
      createProject cfg script =
        ⟨(atlassianRequest cfg {} (atlassianRequest cfg {} script).rest).result,
          (atlassianRequest cfg {} script).attempts +
            (atlassianRequest cfg {} (atlassianRequest cfg {} script).rest).attempts,
          (atlassianRequest cfg {} (atlassianRequest cfg {} script).rest).rest,
          true⟩ ∧
      createSpace cfg script =
        ⟨(atlassianRequest cfg {} (atlassianRequest cfg {} script).rest).result,
          (atlassianRequest cfg {} script).attempts +
            (atlassianRequest cfg {} (atlassianRequest cfg {} script).rest).attempts,
          (atlassianRequest cfg {} (atlassianRequest cfg {} script).rest).rest,
          true⟩) ∧
    (∀ e, (atlassianRequest cfg {} script).result = e →
      (∀ p, e ≠ ReqResult.ok p) →
      errStatusCode e ≠ some 409 →
      jsIncludes (errMessage e) ("already exists") = false →
      createProject cfg script =
        ⟨e, (atlassianRequest cfg {} script).attempts,
          (atlassianRequest cfg {} script).rest, false⟩ ∧
      createSpace cfg script =
        ⟨e, (atlassianRequest cfg {} script).attempts,
          (atlassianRequest cfg {} script).rest, false⟩) := by
  constructor
  · intro s b hres hsig
    have hg1 : errStatusCode (ReqResult.httpError s b) = some 409 ∨
        jsIncludes (errMessage (ReqResult.httpError s b)) ("already exists") = true := by
      cases hsig with
      | inl h => exact Or.inl (by rw [h]; rfl)
      | inr h => exact Or.inr h
    have hg2 : jsIncludes (errMessage (ReqResult.httpError s b)) ("already exists") = true ∨
        errStatusCode (ReqResult.httpError s b) = some 409 := hg1.symm
    constructor
    · unfold createProject
      dsimp only
      rw [hres]
      dsimp only
      rw [if_pos hg1]
    · unfold createSpace
      dsimp only
      rw [hres]
      dsimp only
      rw [if_pos hg2]
  · intro e hres hok h409 hmsg
    have hg1 : ¬(errStatusCode e = some 409 ∨
        jsIncludes (errMessage e) ("already exists") = true) := by
      intro hor
      cases hor with
      | inl h => exact h409 h
      | inr h => exact absurd h (by rw [hmsg]; decide)
    have hg2 : ¬(jsIncludes (errMessage e) ("already exists") = true ∨
        errStatusCode e = some 409) := fun hor => hg1 hor.symm
    constructor
    · unfold createProject
      dsimp only
      rw [hres]
      cases e with
      | ok p => exact absurd rfl (hok p)
      | httpError s b => dsimp only; rw [if_neg hg1]
      | transportError c => dsimp only; rw [if_neg hg1]
      | configError m => dsimp only; rw [if_neg hg1]
    · unfold createSpace
      dsimp only
      rw [hres]
      cases e with
      | ok p => exact absurd rfl (hok p)
      | httpError s b => dsimp only; rw [if_neg hg2]
      | transportError c => dsimp only; rw [if_neg hg2]
      | configError m => dsimp only; rw [if_neg hg2]

/-- C3 witness: a 409 create answer followed by a successful fetch answer
resolves both creators to the fetched payload with the fetch issued. -/
theorem createOrFetch_conflict_witness :
    createProject testCfg
        [JsResp.httpStatus 409 ("dup") none, JsResp.httpStatus 200 ("fetched") none] =
      ⟨ReqResult.ok ("fetched"), 2, [], true⟩ ∧
    createSpace testCfg
        [JsResp.httpStatus 409 ("dup") none, JsResp.httpStatus 200 ("fetched") none] =
      ⟨ReqResult.ok ("fetched"), 2, [], true⟩ :=
  (createOrFetch_conflict testCfg
      [JsResp.httpStatus 409 ("dup") none, JsResp.httpStatus 200 ("fetched") none]).1
    409 (("dup").take 500) rfl (Or.inl rfl)

/-- C6: a primary PUT answered 404 or 400 triggers exactly one POST fallback
against the same path with the same multipart body, whose own non-2xx answer
is terminal (an upload error, no further attempt); a 2xx fallback answer
resolves; and any primary non-2xx status other than 404/400 rejects at once
with no fallback attempt. -/
theorem uploadAttachment_fallback (apiPath filename fileData boundary : String)
    (c1 c2 : Nat) (d1 d2 : String) (rest : List UpResp) :
    ((c1 = 404 ∨ c1 = 400) →
      uploadAttachment apiPath filename fileData boundary
          (UpResp.http c1 d1 :: UpResp.http c2 d2 :: rest) =
        ([⟨("PUT"), apiPath, multipartBody boundary filename fileData⟩,
          ⟨("POST"), apiPath, multipartBody boundary filename fileData⟩],
         if 200 ≤ c2 ∧ c2 < 300 then UpResult.ok d2
         else UpResult.uploadError c2 (d2.take 200))) ∧
    (¬(200 ≤ c1 ∧ c1 < 300) → c1 ≠ 404 → c1 ≠ 400 →
      uploadAttachment apiPath filename fileData boundary
          (UpResp.http c1 d1 :: rest) =
        ([⟨("PUT"), apiPath, multipartBody boundary filename fileData⟩],
         UpResult.uploadError c1 (d1.take 200))) := by
  constructor
  · intro h1
    have h2xx : ¬(200 ≤ c1 ∧ c1 < 300) := by
      cases h1 with
      | inl h => subst h; decide
      | inr h => subst h; decide
    unfold uploadAttachment
    dsimp only
    rw [if_neg h2xx, if_pos h1]
    split_ifs <;> rfl
  · intro h2xx h404 h400
    unfold uploadAttachment
    dsimp only
    rw [if_neg h2xx, if_neg (by simp [h404, h400])]

/-- C6 witness: a 404 primary answer followed by a 500 fallback answer makes
both attempts (same path and body) and ends in an upload error; a 403
primary answer makes a single attempt and ends in an upload error. -/
theorem uploadAttachment_fallback_witness :
    (uploadAttachment ("/wiki/att") ("s.png") ("DATA") ("bb")
        (UpResp.http 404 ("nf") :: UpResp.http 500 ("boom") :: []) =
      ([⟨("PUT"), ("/wiki/att"), multipartBody ("bb") ("s.png") ("DATA")⟩,
        ⟨("POST"), ("/wiki/att"), multipartBody ("bb") ("s.png") ("DATA")⟩],
       if 200 ≤ 500 ∧ 500 < 300 then UpResult.ok ("boom")
       else UpResult.uploadError 500 (("boom").take 200))) ∧
    (uploadAttachment ("/wiki/att") ("s.png") ("DATA") ("bb")
        (UpResp.http 403 ("no") :: []) =
      ([⟨("PUT"), ("/wiki/att"), multipartBody ("bb") ("s.png") ("DATA")⟩],
       UpResult.uploadError 403 (("no").take 200))) :=
  ⟨(uploadAttachment_fallback ("/wiki/att") ("s.png") ("DATA") ("bb")
      404 500 ("nf") ("boom") []).1 (Or.inl rfl),
   (uploadAttachment_fallback ("/wiki/att") ("s.png") ("DATA") ("bb")
      403 0 ("no") ("") []).2 (by decide) (by decide) (by decide)⟩

/-- A `createIssue` call can only succeed when its natural key does not
already exist on the backend. -/
theorem issueCreate_ok_not_existing (st : IssueSrv) (s : String)
    (pk : Option String) (r : CRes) (st1 : IssueSrv)
    (h : issueCreate st s pk = (Except.ok r, st1)) : s ∉ st.existing := by
  unfold issueCreate at h
  cases hc : st.configErr <;> rw [hc] at h <;> simp at h
  case none =>
    split_ifs at h with h1 h2
    · exact absurd h (by simp)
    · exact absurd h (by simp)
    · exact h2

/-- The head summary of a forest is among its pre-order summaries. -/
theorem summary_mem_preSummaries (i : ISpec) (rest : List ISpec) :
    i.summary ∈ preSummariesF (i :: rest) := by
  cases i with
  | mk s cs => simp [preSummariesF, preSummaries1, ISpec.summary]

/-- C5 counterexample: a first run on the single-node forest S creates the
issue (id 1); a second run of the same forest on the resulting backend state
— where the natural key S now exists — returns an empty report: no node is
`Created` at all, let alone with the same identifier. -/
theorem provision_second_run_cex :
    (createIssueTree ⟨1, [], [], none, [], []⟩ [ISpec.mk ("S") []]).1 =
      [⟨1, ("PROJ-1"), ("S")⟩] ∧
    (createIssueTree
        (createIssueTree ⟨1, [], [], none, [], []⟩ [ISpec.mk ("S") []]).2
        [ISpec.mk ("S") []]).1 = [] := by
  exact ⟨by decide, by decide⟩

/-- C5 amended: `createIssueTree` creates nodes through the plain
`createIssue`, which has no conflict-to-fetch recovery; on a run over a
forest whose every natural key already exists, every create answers an
already-exists conflict, every node is caught as Failed, and the report is
empty — not one `Created` entry repeating the identifiers of the first run. -/
theorem provision_second_run_conflicts :
    ∀ (F : List ISpec) (st : IssueSrv), st.configErr = none →
      (∀ s ∈ preSummariesF F, s ∈ st.existing) →
      (createIssueTree st F).1 = [] := by
  intro F
  induction F with
  | nil => intro st hc h; simp [createIssueTree]
  | cons i rest ih =>
    intro st hc h
    rcases hcr : issueCreate st i.summary none with ⟨res, st1⟩
    cases res with
    | ok r =>
      exact absurd (h i.summary (summary_mem_preSummaries i rest))
        (issueCreate_ok_not_existing st i.summary none r st1 hcr)
    | error e =>
      have hst1 := issueCreate_error_state st i.summary none e st1 hcr
      simp [createIssueTree, hcr]
      apply ih st1 (by rw [hst1]; exact hc)
      intro s hs
      rw [hst1]
      refine h s ?_
      cases i with
      | mk si cs => simp [preSummariesF, preSummaries1]; right; right; exact hs

/-- C5 amended witness: a two-node chain whose keys S and T both already
exist yields an empty report. -/
theorem provision_second_run_conflicts_witness :
    (createIssueTree ⟨5, [("S"), ("T")], [], none, [], []⟩
        [ISpec.mk ("S") [ISpec.mk ("T") []]]).1 = [] :=
  provision_second_run_conflicts [ISpec.mk ("S") [ISpec.mk ("T") []]]
    ⟨5, [("S"), ("T")], [], none, [], []⟩ rfl
    (by simp [preSummariesF, preSummaries1])

/-- Every page spec tree has at least its root node. -/
theorem psSize_pos (p : PSpec) : 0 < psSize p := by
  cases p with
  | mk t b cs => simp [psSize]

/-- Characterization of one provisioner iteration on the Confluence side,
by induction on the subtree size: the own attempt of the node is recorded first;
everything created inside comes from the subtree, in pre-order; and on a
failed create nothing beyond that one attempt happens. -/
theorem buildOne_calls_char :
    ∀ (n : Nat) (st : PageSrv) (pid : String) (p : PSpec), psSize p ≤ n →
      ∃ tl cr,
        (buildPageOne st pid p).calls = st.calls ++ ((p.title, pid) :: tl) ∧
        (buildPageOne st pid p).created = st.created ++ cr ∧
        List.Sublist (cr.map PageRes.title) (preTitles1 p) ∧
        (∀ e st1, pageCreate st p.title pid = (Except.error e, st1) →
          tl = [] ∧ cr = []) := by
  intro n
  induction n with
  | zero =>
    intro st pid p hle
    exact absurd hle (by have := psSize_pos p; omega)
  | succ n ih =>
    intro st pid p hle
    cases p with
    | mk t b cs =>
      simp only [PSpec.title]
      rcases hc : pageCreate st t pid with ⟨res, st1⟩
      cases res with
      | error e =>
        have hst1 := pageCreate_error_state st t pid e st1 hc
        refine ⟨[], [], ?_, ?_, ?_, fun e2 st2 h2 => ⟨rfl, rfl⟩⟩
        · simp [buildPageOne, hc, hst1]
        · simp [buildPageOne, hc, hst1]
        · simp
      | ok r =>
        obtain ⟨hrt, hcalls, hcreated⟩ := pageCreate_ok_state st t pid r st1 hc
        cases cs with
        | nil =>
          refine ⟨[], [r], ?_, ?_, ?_, ?_⟩
          · simp [buildPageOne, hc, hcalls]
          · simp [buildPageOne, hc, hcreated]
          · simp [preTitles1, preTitlesF, hrt]
          · intro e2 st2 h2
            exact absurd h2 (by simp)
        | cons c cs2 =>
          have hsz : psSizeF (c :: cs2) ≤ n := by
            simp [psSize] at hle
            omega
          have haux : ∀ (qs : List PSpec) (st2 : PageSrv) (pid2 : String),
              psSizeF qs ≤ n →
              ∃ cl cr2,
                (buildPageTree st2 pid2 qs).calls = st2.calls ++ cl ∧
                (buildPageTree st2 pid2 qs).created = st2.created ++ cr2 ∧
                List.Sublist (cr2.map PageRes.title) (preTitlesF qs) := by
            intro qs
            induction qs with
            | nil =>
              intro st2 pid2 hq
              exact ⟨[], [], by simp [buildPageTree], by simp [buildPageTree],
                by simp [preTitlesF]⟩
            | cons q qs2 ihq =>
              intro st2 pid2 hq
              have hq1 : psSize q ≤ n := by
                simp [psSizeF] at hq
                omega
              have hq2 : psSizeF qs2 ≤ n := by
                simp [psSizeF] at hq
                omega
              obtain ⟨tl1, cr1, h1, h2, h3, -⟩ := ih st2 pid2 q hq1
              obtain ⟨cl2, cr2, g1, g2, g3⟩ :=
                ihq (buildPageOne st2 pid2 q) pid2 hq2
              refine ⟨((q.title, pid2) :: tl1) ++ cl2, cr1 ++ cr2, ?_, ?_, ?_⟩
              · rw [buildPageTree, g1, h1]
                simp
              · rw [buildPageTree, g2, h2]
                simp
              · rw [List.map_append]
                have : preTitlesF (q :: qs2) = preTitles1 q ++ preTitlesF qs2 := by
                  simp [preTitlesF]
                rw [this]
                exact List.Sublist.append h3 g3
          obtain ⟨cl, cr, g1, g2, g3⟩ := haux (c :: cs2) st1 r.id hsz
          refine ⟨cl, r :: cr, ?_, ?_, ?_, ?_⟩
          · rw [show buildPageOne st pid (PSpec.mk t b (c :: cs2)) =
                buildPageTree st1 r.id (c :: cs2) by simp [buildPageOne, hc]]
            rw [g1, hcalls]
            simp
          · rw [show buildPageOne st pid (PSpec.mk t b (c :: cs2)) =
                buildPageTree st1 r.id (c :: cs2) by simp [buildPageOne, hc]]
            rw [g2, hcreated]
            simp
          · have : preTitles1 (PSpec.mk t b (c :: cs2)) =
                t :: preTitlesF (c :: cs2) := by simp [preTitles1]
            rw [this]
            simp only [List.map_cons, hrt]
            exact List.Sublist.cons₂ t g3
          · intro e2 st2 h2
            exact absurd h2 (by simp)

/-- Characterization of a whole Confluence forest run: the attempts and the
created pages only grow, and the created pages follow the pre-order of the
forest. -/
theorem buildTree_calls_char :
    ∀ (ps : List PSpec) (st : PageSrv) (pid : String),
      ∃ cl cr,
        (buildPageTree st pid ps).calls = st.calls ++ cl ∧
        (buildPageTree st pid ps).created = st.created ++ cr ∧
        List.Sublist (cr.map PageRes.title) (preTitlesF ps) := by
  intro ps
  induction ps with
  | nil =>
    intro st pid
    exact ⟨[], [], by simp [buildPageTree], by simp [buildPageTree],
      by simp [preTitlesF]⟩
  | cons q qs ihq =>
    intro st pid
    obtain ⟨tl1, cr1, h1, h2, h3, -⟩ :=
      buildOne_calls_char (psSize q) st pid q le_rfl
    obtain ⟨cl2, cr2, g1, g2, g3⟩ := ihq (buildPageOne st pid q) pid
    refine ⟨((q.title, pid) :: tl1) ++ cl2, cr1 ++ cr2, ?_, ?_, ?_⟩
    · rw [buildPageTree, g1, h1]
      simp
    · rw [buildPageTree, g2, h2]
      simp
    · rw [List.map_append]
      have : preTitlesF (q :: qs) = preTitles1 q ++ preTitlesF qs := by
        simp [preTitlesF]
      rw [this]
      exact List.Sublist.append h3 g3

/-- C2: on both provisioners, a node whose creation attempt fails contributes
exactly its own recorded attempt — no descendant is attempted and nothing of
its subtree is created or reported — and the children of a node are only
processed after the creation attempt of the node itself succeeds, under the fresh parent
identity. -/
theorem provisioner_descendant_skip :
    (∀ (st : IssueSrv) (i : ISpec) (rest : List ISpec) (e : JsError)
        (st1 : IssueSrv),
      issueCreate st i.summary none = (Except.error e, st1) →
      createIssueTree st (i :: rest) = createIssueTree st1 rest ∧
      st1 = { st with calls := st.calls ++ [(i.summary, none)] }) ∧
    (∀ (st : IssueSrv) (i : ISpec) (rest : List ISpec) (r : CRes)
        (st1 : IssueSrv),
      issueCreate st i.summary none = (Except.ok r, st1) →
      createIssueTree st (i :: rest) =
        (r :: (createChildren st1 r.key i.children).1 ++
            (createIssueTree (createChildren st1 r.key i.children).2 rest).1,
          (createIssueTree (createChildren st1 r.key i.children).2 rest).2)) ∧
    (∀ (st : PageSrv) (pid : String) (p : PSpec) (e : JsError) (st1 : PageSrv),
      pageCreate st p.title pid = (Except.error e, st1) →
      buildPageOne st pid p = st1 ∧
      st1 = { st with calls := st.calls ++ [(p.title, pid)] }) ∧
    (∀ (st : PageSrv) (pid : String) (p : PSpec),
      ∃ tl, (buildPageOne st pid p).calls = st.calls ++ ((p.title, pid) :: tl) ∧
        (∀ e st1, pageCreate st p.title pid = (Except.error e, st1) → tl = [])) := by
  refine ⟨?_, ?_, ?_, ?_⟩
  · intro st i rest e st1 h
    exact ⟨by simp [createIssueTree, h],
      issueCreate_error_state st i.summary none e st1 h⟩
  · intro st i rest r st1 h
    simp [createIssueTree, h]
  · intro st pid p e st1 h
    cases p with
    | mk t b cs =>
      simp only [PSpec.title] at h ⊢
      exact ⟨by simp [buildPageOne, h],
        pageCreate_error_state st t pid e st1 h⟩
  · intro st pid p
    obtain ⟨tl, cr, h1, h2, h3, h4⟩ :=
      buildOne_calls_char (psSize p) st pid p le_rfl
    exact ⟨tl, h1, fun e st1 he => (h4 e st1 he).1⟩

/-- C2 witness: with root A failing, processing the forest A(A1), B from the
initial state equals processing just B from the state where only the one
attempt on A is recorded. -/
theorem provisioner_descendant_skip_witness :
    (createIssueTree ⟨1, [], [("A")], none, [], []⟩
        (ISpec.mk ("A") [ISpec.mk ("A1") []] :: [ISpec.mk ("B") []]) =
      createIssueTree ⟨1, [], [("A")], none, [(("A"), none)], []⟩
        [ISpec.mk ("B") []]) ∧
    ((⟨1, [], [("A")], none, [(("A"), none)], []⟩ : IssueSrv) =
      { (⟨1, [], [("A")], none, [], []⟩ : IssueSrv) with
        calls := ([] : List (String × Option String)) ++
          [((ISpec.mk ("A") [ISpec.mk ("A1") []]).summary, none)] }) :=
  provisioner_descendant_skip.1 ⟨1, [], [("A")], none, [], []⟩
    (ISpec.mk ("A") [ISpec.mk ("A1") []]) [ISpec.mk ("B") []]
    ⟨some 500, ("HTTP 500: Internal Server Error")⟩
    ⟨1, [], [("A")], none, [(("A"), none)], []⟩ rfl

/-- The child loop reports summaries in the order of the child list. -/
theorem createChildren_sublist :
    ∀ (cs : List ISpec) (st : IssueSrv) (pk : String),
      List.Sublist (((createChildren st pk cs).1).map CRes.summary)
        (preSummariesF cs) := by
  intro cs
  induction cs with
  | nil => intro st pk; simp [createChildren, preSummariesF]
  | cons c cs2 ih =>
    intro st pk
    rcases h : issueCreate st c.summary (some pk) with ⟨res, st1⟩
    cases res with
    | ok r =>
      have hr := issueCreate_ok_summary st c.summary (some pk) r st1 h
      cases c with
      | mk s kk =>
        simp only [ISpec.summary] at hr
        simp [createChildren, h, preSummariesF, preSummaries1, hr]
        exact List.Sublist.trans (ih st1 pk)
          (List.sublist_append_right (preSummariesF kk) (preSummariesF cs2))
    | error e =>
      cases c with
      | mk s kk =>
        simp [createChildren, h, preSummariesF, preSummaries1]
        exact List.Sublist.cons s
          (List.Sublist.trans (ih st1 pk)
            (List.sublist_append_right (preSummariesF kk) (preSummariesF cs2)))


/-- The full run reports summaries as a subsequence of the pre-order walk. -/
theorem createIssueTree_sublist :
    ∀ (F : List ISpec) (st : IssueSrv),
      List.Sublist (((createIssueTree st F).1).map CRes.summary)
        (preSummariesF F) := by
  intro F
  induction F with
  | nil => intro st; simp [createIssueTree, preSummariesF]
  | cons i rest ih =>
    intro st
    rcases h : issueCreate st i.summary none with ⟨res, st1⟩
    cases res with
    | ok r =>
      have hr := issueCreate_ok_summary st i.summary none r st1 h
      cases i with
      | mk s kk =>
        simp only [ISpec.summary] at hr
        simp [createIssueTree, h, preSummariesF, preSummaries1, hr,
          ISpec.children]
        exact List.Sublist.append (createChildren_sublist kk st1 r.key)
          (ih (createChildren st1 r.key kk).2)
    | error e =>
      cases i with
      | mk s kk =>
        simp [createIssueTree, h, preSummariesF, preSummaries1]
        exact List.Sublist.cons s
          (List.Sublist.trans (ih st1)
            (List.sublist_append_right (preSummariesF kk) (preSummariesF rest)))

/-- C8: the entries of a completed run appear in pre-order tree-walk
sequence: the issue report, projected to natural keys, is a subsequence of
the pre-order summaries of the forest, and the pages created by the Confluence
walk, projected to titles, are a subsequence of the pre-order
titles. -/
theorem provision_report_preorder (F : List ISpec) (st : IssueSrv)
    (ps : List PSpec) (pst : PageSrv) (pid : String) :
    List.Sublist (((createIssueTree st F).1).map CRes.summary)
      (preSummariesF F) ∧
    ∃ cr, (buildPageTree pst pid ps).created = pst.created ++ cr ∧
      List.Sublist (cr.map PageRes.title) (preTitlesF ps) := by
  refine ⟨createIssueTree_sublist F st, ?_⟩
  obtain ⟨cl, cr, h1, h2, h3⟩ := buildTree_calls_char ps pst pid
  exact ⟨cr, h2, h3⟩

/-- C9 amended witness: with an empty domain the request settles as a
configuration error after zero attempts, the script untouched. -/
theorem atlassianRequest_config_error_witness :
    atlassianRequest ⟨⟨(""), (""), ("")⟩, testCfg.screenshot, testCfg.auth⟩ {}
        [] =
      ⟨0, [], ReqResult.configError domainErrMsg, []⟩ :=
  (atlassianRequest_config_error
      ⟨⟨(""), (""), ("")⟩, testCfg.screenshot, testCfg.auth⟩ {} [] ("m")
      ⟨1, [], [], none, [], []⟩ []).1 rfl
